import Mathlib

/-
Verification of the request-to-response pipeline of simple-http-server
(src/main.rs).  The definitions below are a shallow embedding of the
source: the range normalization, conditional-request evaluation,
compression negotiation and cache short-circuit of MainHandler::send_file,
the sorting / index-override / compression logic of
MainHandler::list_directory, and the percent-decoding path resolution of
MainHandler::handle.
-/

set_option autoImplicit false

namespace SimpleHttpServer

/-- HTTP status codes produced by the handler (iron::status values used in
src/main.rs). -/
inductive Status
  | ok200
  | content206
  | found302
  | notModified304
  | badRequest400
  | notFound404
  | notSatisfiable416
  | internalError500
  deriving DecidableEq, Repr

/-- Content encodings (iron::headers::Encoding values the code compares
against). -/
inductive Encoding
  | gzip
  | deflate
  | identity
  | otherEnc (s : String)
  deriving DecidableEq, Repr

/-- One element of an Accept-Encoding header list: hyper QualityItem.  The
code destructures QualityItem { item, .. }, ignoring the quality, which we
keep in the model to show it is never consulted. -/
structure QualityItem where
  item : Encoding
  quality : Nat
  deriving DecidableEq, Repr

/-- hyper EntityTag: weak flag plus opaque tag. -/
structure EntityTag where
  weak : Bool
  tag : String
  deriving DecidableEq, Repr

/-- hyper EntityTag::strong_eq: both tags strong and textually equal. -/
def EntityTag.strongEq (a b : EntityTag) : Bool :=
  !a.weak && !b.weak && a.tag == b.tag

/-- hyper EntityTag::weak_eq: tags textually equal, weakness ignored. -/
def EntityTag.weakEq (a b : EntityTag) : Bool :=
  a.tag == b.tag

/-- hyper ByteRangeSpec: the three source forms of one byte range. -/
inductive ByteRangeSpec
  | fromTo (x y : Nat)
  | allFrom (x : Nat)
  | last (x : Nat)
  deriving DecidableEq, Repr

/-- hyper Range header: a set of byte ranges or an unregistered unit. -/
inductive RangeHeader
  | bytes (rs : List ByteRangeSpec)
  | unregistered (unit value : String)
  deriving DecidableEq, Repr

/-- hyper If-Match header. -/
inductive IfMatchHeader
  | any
  | items (l : List EntityTag)
  deriving DecidableEq, Repr

/-- hyper If-Range header; dates are modelled as integer seconds (the code
compares at second resolution: Timespec::new(seconds, 0)). -/
inductive IfRangeHeader
  | entityTag (t : EntityTag)
  | date (d : Int)
  deriving DecidableEq, Repr

/-- File metadata the handler reads: byte length and the last-modification
time in seconds (src/main.rs builds Timespec::new(time.seconds(), 0)). -/
structure FileMeta where
  len : Nat
  modifiedSec : Int
  deriving DecidableEq, Repr

/-- The MainHandler configuration flags relevant to the pipeline. -/
structure Config where
  index : Bool
  cache : Bool
  range : Bool
  sort : Bool
  compress : Option (List String)
  deriving DecidableEq, Repr

/-- The request headers send_file consumes. -/
structure FileRequest where
  ifMatch : Option IfMatchHeader
  ifRange : Option IfRangeHeader
  range : Option RangeHeader
  ifModifiedSince : Option Int
  acceptEncoding : Option (List QualityItem)
  deriving DecidableEq, Repr

/-- What the response body was set to. -/
inductive BodyKind
  | empty
  | fullFile
  | fileSlice (offset length : Nat)
  deriving DecidableEq, Repr

/-- The observable parts of an iron Response the claims talk about. -/
structure Resp where
  status : Status
  contentLength : Option Nat
  contentRange : Option (Nat × Nat × Nat)
  contentEncoding : Option Encoding
  body : BodyKind
  etagHdr : Option EntityTag
  lastModified : Option Int
  cacheControl : Bool
  acceptRanges : Bool
  deriving DecidableEq, Repr

/-- Lowercase hex rendering of a Nat, as Rust prints with the x format. -/
def natHex (n : Nat) : String :=
  String.mk (Nat.toDigits 16 n)

/-- Lowercase hex of an i64 value: Rust prints the two's-complement bits. -/
def intHex64 (i : Int) : String :=
  natHex ((i % ((2 : Int) ^ 64)).toNat)

/-- The weak ETag send_file derives from metadata:
EntityTag::weak(format of len, sec, nsec in hex, nsec always 0). -/
def etagOf (meta : FileMeta) : EntityTag :=
  ⟨true, natHex meta.len ++ "-" ++ intHex64 meta.modifiedSec ++ "." ++ natHex 0⟩

/-- Normalization of the first byte range against the file length
(src/main.rs 663-693).  Mutation of the local x and y in the source is
modelled by shadowing. -/
def resolveByteRange (L : Nat) : ByteRangeSpec → Except Status (Nat × Nat)
  | .fromTo x y =>
    if x ≥ L ∨ x > y then
      .error .notSatisfiable416
    else
      let y := if y ≥ L then L - 1 else y
      .ok (x, y - x + 1)
  | .allFrom x =>
    if x ≥ L then .error .notSatisfiable416
    else .ok (x, L - x)
  | .last x =>
    let x := if x > L then L else x
    .ok (L - x, x)

/-- The If-Match precondition failure test (src/main.rs 640-647): when the
header is an item list, fail unless some item strong-equals the current
ETag; the Any form and absence never fail. -/
def ifMatchFails (etag : EntityTag) : Option IfMatchHeader → Bool
  | some (.items items) => items.all (fun i => !(i.strongEq etag))
  | _ => false

/-- The If-Range test (src/main.rs 651-655): entity tag compares weakly
with the current ETag, a date admits the range iff the modification time
is at most that date, absence always admits. -/
def ifRangeMatches (etag : EntityTag) (modifiedSec : Int) : Option IfRangeHeader → Bool
  | some (.entityTag t) => etag.weakEq t
  | some (.date d) => decide (modifiedSec ≤ d)
  | none => true

/-- Response::with(status::Ok) plus the Accept-Ranges header set when range
support is on (src/main.rs 617-620). -/
def baseResp (cfg : Config) : Resp :=
  { status := .ok200
    contentLength := none
    contentRange := none
    contentEncoding := none
    body := .empty
    etagHdr := none
    lastModified := none
    cacheControl := false
    acceptRanges := cfg.range }

/-- The full-body branch: Content-Length plus the opened file as body
(src/main.rs 718-722 and 724-728). -/
def fullBodyResp (cfg : Config) (meta : FileMeta) : Resp :=
  { baseResp cfg with contentLength := some meta.len, body := .fullFile }

/-- Response::with(status::NotModified): a fresh response with nothing else
set (src/main.rs 752). -/
def notModifiedResp : Resp :=
  { status := .notModified304
    contentLength := none
    contentRange := none
    contentEncoding := none
    body := .empty
    etagHdr := none
    lastModified := none
    cacheControl := false
    acceptRanges := false }

/-- The GET range-handling phase of send_file (src/main.rs 634-728):
If-Match precondition, If-Range resolution, dispatch on the Range header
with only the first byte range consulted. -/
def rangePhase (cfg : Config) (req : FileRequest) (meta : FileMeta) : Except Status Resp :=
  if cfg.range then
    if req.range.isSome && ifMatchFails (etagOf meta) req.ifMatch then
      .error .notSatisfiable416
    else
      match (if ifRangeMatches (etagOf meta) meta.modifiedSec req.ifRange then
        req.range else none) with
      | some (.bytes rs) =>
        match rs.head? with
        | some r =>
          match resolveByteRange meta.len r with
          | .error e => .error e
          | .ok (offset, length) =>
            .ok { baseResp cfg with
                  status := .content206
                  contentLength := some length
                  contentRange := some (offset, offset + length - 1, meta.len)
                  body := .fileSlice offset length }
        | none => .error .notSatisfiable416
      | some (.unregistered _ _) => .error .notSatisfiable416
      | none => .ok (fullBodyResp cfg meta)
  else .ok (fullBodyResp cfg meta)

/-- The compression step of send_file (src/main.rs 733-746): only when a
suffix list is configured, the status is not 206 and the path matches a
configured suffix; the first gzip or deflate item of Accept-Encoding is
chosen, its quality ignored. -/
def compressPhase (compress : Option (List String)) (path : String)
    (accept : Option (List QualityItem)) (r : Resp) : Resp :=
  match compress with
  | some exts =>
    if r.status ≠ Status.content206 ∧ exts.any (fun ext => ext.data.isSuffixOf path.data) then
      match accept with
      | some items =>
        match items.find? (fun qi => qi.item == Encoding.deflate || qi.item == Encoding.gzip) with
        | some qi => { r with contentEncoding := some qi.item }
        | none => r
      | none => r
    else r
  | none => r

/-- The cache step of send_file (src/main.rs 748-759): with caching on, an
If-Modified-Since date at or past the modification time returns a fresh
304 response; otherwise cache headers are attached. -/
def cachePhase (cfg : Config) (ifModifiedSince : Option Int) (meta : FileMeta) (r : Resp) : Resp :=
  if cfg.cache then
    match ifModifiedSince with
    | some ims =>
      if meta.modifiedSec ≤ ims then notModifiedResp
      else { r with cacheControl := true
                    lastModified := some meta.modifiedSec
                    etagHdr := some (etagOf meta) }
    | none =>
      { r with cacheControl := true
               lastModified := some meta.modifiedSec
               etagHdr := some (etagOf meta) }
  else r

/-- send_file for a GET request: range phase, then compression, then the
cache step, in source order (src/main.rs 599-761). -/
def sendFileGet (cfg : Config) (path : String) (req : FileRequest) (meta : FileMeta) :
    Except Status Resp :=
  match rangePhase cfg req meta with
  | .error e => .error e
  | .ok r =>
    .ok (cachePhase cfg req.ifModifiedSince meta (compressPhase cfg.compress path req.acceptEncoding r))

/-- Metadata of one directory entry as the listing reads it.  The dir and
file flags are kept separate because fs metadata can have both false (a
symlink), and the source consults both. -/
structure EntryMeta where
  isDirFlag : Bool
  isFileFlag : Bool
  len : Nat
  modifiedSec : Int
  deriving DecidableEq, Repr

/-- One directory entry: filename plus metadata (src/main.rs 364-367). -/
structure DirEntry where
  filename : String
  metadata : EntryMeta
  deriving DecidableEq, Repr

/-- The size comparator of list_directory (src/main.rs 442-451): when the
dir flags agree or the file flags agree, compare by metadata length;
otherwise the directory side is less. -/
def cmpSize (a b : DirEntry) : Ordering :=
  if a.metadata.isDirFlag == b.metadata.isDirFlag
      || a.metadata.isFileFlag == b.metadata.isFileFlag then
    compare a.metadata.len b.metadata.len
  else if a.metadata.isDirFlag then Ordering.lt
  else Ordering.gt

/-- Comparator dispatch on the validated sort field (src/main.rs 433-453);
the wildcard arm is unreachable after validation. -/
def cmpField (field : String) (a b : DirEntry) : Ordering :=
  if field = "name" then compare a.filename b.filename
  else if field = "modified" then compare a.metadata.modifiedSec b.metadata.modifiedSec
  else cmpSize a b

/-- The full comparator passed to sort_by, with the desc order applied by
reversing the result (src/main.rs 431-455). -/
def cmpEntries (field : String) (reverse : Bool) (a b : DirEntry) : Ordering :=
  let rv := cmpField field a b
  if reverse then rv.swap else rv

/-- Comparator-induced le used to model the stable sort. -/
def cmpLe (cmp : DirEntry → DirEntry → Ordering) (a b : DirEntry) : Bool :=
  match cmp a b with
  | .gt => false
  | _ => true

/-- Stable insertion into a sorted list; an element is placed before the
first element it is at most equal to, so earlier elements keep priority. -/
def insertLe (le : DirEntry → DirEntry → Bool) (x : DirEntry) :
    List DirEntry → List DirEntry
  | [] => [x]
  | y :: ys => if le x y then x :: y :: ys else y :: insertLe le x ys

/-- Stable sort by a comparator, modelling Rust's stable sort_by: the
result is non-decreasing for the comparator and ties keep input order. -/
def sortByCmp (cmp : DirEntry → DirEntry → Ordering) : List DirEntry → List DirEntry
  | [] => []
  | x :: xs => insertLe (cmpLe cmp) x (sortByCmp cmp xs)

/-- The recognized sort fields (SORT_FIELDS in src/main.rs 58). -/
def sortFields : List String := ["name", "modified", "size"]

/-- Query-pair scan of list_directory (src/main.rs 403-409): the last
sort value and the last order value win. -/
def parseSortQuery (pairs : List (String × String)) : Option String × Option String :=
  pairs.foldl
    (fun acc kv =>
      if kv.1 = "sort" then (some kv.2, acc.2)
      else if kv.1 = "order" then (acc.1, some kv.2)
      else acc)
    (none, none)

/-- The sorting phase of list_directory (src/main.rs 400-456): only when
sorting is enabled and a sort field was given are field and order
validated; unknown values give 400, otherwise the entries are sorted. -/
def listDirSortPhase (sortEnabled : Bool) (pairs : List (String × String))
    (entries : List DirEntry) : Except Status (List DirEntry) :=
  if sortEnabled then
    let sq := parseSortQuery pairs
    let order := sq.2.getD "desc"
    match sq.1 with
    | some field =>
      if ¬ sortFields.contains field then .error .badRequest400
      else if ¬ (["asc", "desc"].contains order) then .error .badRequest400
      else .ok (sortByCmp (cmpEntries field (order == "desc")) entries)
    | none => .ok entries
  else .ok entries

/-- The automatic-index check inside the entry rendering loop
(src/main.rs 497-505): the first entry in iteration order named
index.html or index.htm is delegated to send_file. -/
def indexOverride (indexEnabled : Bool) (entries : List DirEntry) : Option String :=
  if indexEnabled then
    (entries.find? (fun e => decide (e.filename = "index.html" ∨ e.filename = "index.htm"))).map
      (fun e => e.filename)
  else none

/-- The listing compression header (src/main.rs 587-595): when compression
is configured and any Accept-Encoding item is deflate or gzip, the header
is set to gzip, whatever the item and its quality were. -/
def listingEncoding (compressConfigured : Bool) (accept : Option (List QualityItem)) :
    Option Encoding :=
  if compressConfigured then
    match accept with
    | some items =>
      if items.any (fun qi => qi.item == Encoding.deflate || qi.item == Encoding.gzip) then
        some Encoding.gzip
      else none
    | none => none
  else none

/-- Outcome of list_directory: either the rendered listing (entries in
final order plus the negotiated encoding) or delegation to send_file for
an index file. -/
inductive ListOutcome
  | listing (entries : List DirEntry) (encoding : Option Encoding)
  | serveFile (name : String)
  deriving DecidableEq, Repr

/-- list_directory in source order (src/main.rs 362-597): sort validation
and sorting first, then the per-entry index override, then the listing
with its compression header. -/
def listDirectory (sortEnabled indexEnabled compressConfigured : Bool)
    (pairs : List (String × String)) (accept : Option (List QualityItem))
    (entries : List DirEntry) : Except Status ListOutcome :=
  match listDirSortPhase sortEnabled pairs entries with
  | .error e => .error e
  | .ok sorted =>
    match indexOverride indexEnabled sorted with
    | some name => .ok (.serveFile name)
    | none => .ok (.listing sorted (listingEncoding compressConfigured accept))

/-- Value of one hex digit byte, as the url crate's percent decoder reads
it. -/
def hexVal (b : Nat) : Option Nat :=
  if 48 ≤ b ∧ b ≤ 57 then some (b - 48)
  else if 97 ≤ b ∧ b ≤ 102 then some (b - 97 + 10)
  else if 65 ≤ b ∧ b ≤ 70 then some (b - 65 + 10)
  else none

/-- url::percent_encoding::percent_decode over a byte list: a percent sign
followed by two hex digits becomes that byte; otherwise the percent sign
passes through literally and decoding continues. -/
def percentDecode : List Nat → List Nat
  | [] => []
  | 37 :: h1 :: h2 :: rest =>
    match hexVal h1, hexVal h2 with
    | some a, some b => (16 * a + b) :: percentDecode rest
    | _, _ => 37 :: percentDecode (h1 :: h2 :: rest)
  | b :: rest => b :: percentDecode rest

/-- Strict UTF-8 decoding of a byte list, as str::from_utf8 validates it:
rejects bare continuation bytes, overlong forms, surrogates and values
past 0x10FFFF. -/
def utf8Decode : List Nat → Option (List Char)
  | [] => some []
  | b :: rest =>
    if b < 128 then
      match utf8Decode rest with
      | some cs => some (Char.ofNat b :: cs)
      | none => none
    else if b < 194 then none
    else if b < 224 then
      match rest with
      | b1 :: rest1 =>
        if 128 ≤ b1 ∧ b1 < 192 then
          match utf8Decode rest1 with
          | some cs => some (Char.ofNat ((b - 192) * 64 + (b1 - 128)) :: cs)
          | none => none
        else none
      | [] => none
    else if b < 240 then
      match rest with
      | b1 :: b2 :: rest2 =>
        if (128 ≤ b1 ∧ b1 < 192) ∧ (128 ≤ b2 ∧ b2 < 192)
            ∧ (b = 224 → 160 ≤ b1) ∧ (b = 237 → b1 < 160) then
          match utf8Decode rest2 with
          | some cs =>
            some (Char.ofNat ((b - 224) * 4096 + (b1 - 128) * 64 + (b2 - 128)) :: cs)
          | none => none
        else none
      | _ => none
    else if b < 245 then
      match rest with
      | b1 :: b2 :: b3 :: rest3 =>
        if (128 ≤ b1 ∧ b1 < 192) ∧ (128 ≤ b2 ∧ b2 < 192) ∧ (128 ≤ b3 ∧ b3 < 192)
            ∧ (b = 240 → 144 ≤ b1) ∧ (b = 244 → b1 < 144) then
          match utf8Decode rest3 with
          | some cs =>
            some (Char.ofNat
              ((b - 240) * 262144 + (b1 - 128) * 4096 + (b2 - 128) * 64 + (b3 - 128)) :: cs)
          | none => none
        else none
      | _ => none
    else none

/-- The segment pipeline of MainHandler::handle (src/main.rs 299-307):
keep non-empty raw segments, percent-decode each into bytes and decode as
UTF-8.  The source unwraps the UTF-8 decode, so a failing segment is a
panic, modelled as none: there is no error mapping in the code. -/
def decodedParts (rawSegs : List (List Nat)) : Option (List String) :=
  (rawSegs.filter (fun s => !s.isEmpty)).mapM
    (fun s => (utf8Decode (percentDecode s)).map (fun cs => String.mk cs))

/-- A raw path segment the url crate treats as a single-dot segment while
parsing: a dot, possibly percent-encoded, case-insensitively. -/
def isSingleDotSeg (s : List Nat) : Bool :=
  s == [46] || s == [37, 50, 101] || s == [37, 50, 69]

/-- A raw path segment the url crate treats as a double-dot segment while
parsing: two dots, each possibly percent-encoded, case-insensitively. -/
def isDoubleDotSeg (s : List Nat) : Bool :=
  s == [46, 46]
  || s == [46, 37, 50, 101] || s == [46, 37, 50, 69]
  || s == [37, 50, 101, 46] || s == [37, 50, 69, 46]
  || s == [37, 50, 101, 37, 50, 101] || s == [37, 50, 101, 37, 50, 69]
  || s == [37, 50, 69, 37, 50, 101] || s == [37, 50, 69, 37, 50, 69]

/-- The dot-segment removal rust-url performs while parsing the request
path, before req.url.path() hands segments to handle: a single-dot
segment is dropped, a double-dot segment pops the previous segment, and
every other segment — including one merely containing an encoded slash —
is kept verbatim.  (The parser can also leave a trailing empty segment
after a pop; handle filters empty segments, so it is omitted here.) -/
def urlNormalizeSegments (segs : List (List Nat)) : List (List Nat) :=
  segs.foldl
    (fun acc s =>
      if isDoubleDotSeg s then acc.dropLast
      else if isSingleDotSeg s then acc
      else acc ++ [s])
    []

/-- Slash-splitting of a decoded part's characters, keeping the pieces in
order. -/
def splitSlashAux : List Char → List Char → List (List Char)
  | [], acc => [acc.reverse]
  | c :: rest, acc =>
    if c = '/' then acc.reverse :: splitSlashAux rest []
    else splitSlashAux rest (c :: acc)

/-- Rust Path components of one decoded part: split at slashes and drop
empty pieces; dot and dot-dot remain as components for the operating
system to resolve. -/
def componentsOf (s : String) : List String :=
  ((splitSlashAux s.data []).map String.mk).filter (fun c => decide (c ≠ ""))

/-- Whether a decoded part names an absolute path. -/
def startsWithSlash (s : String) : Bool :=
  match s.data with
  | c :: _ => c == '/'
  | [] => false

/-- PathBuf::push of one decoded part (src/main.rs 308-310): a part
naming an absolute path replaces the whole path, and any other part has
its slash-separated components appended — push does not treat a part
containing a slash as a single component. -/
def pathPush (path : List String) (part : String) : List String :=
  if startsWithSlash part then componentsOf part
  else path ++ componentsOf part

/-- The filesystem path handle builds (src/main.rs 298-310) from the
segments iron hands it: each decoded part is pushed in turn, with no
check of any kind on the part. -/
def handleFsPath (root : List String) (urlSegs : List (List Nat)) : Option (List String) :=
  (decodedParts urlSegs).map (fun parts => parts.foldl pathPush root)

/-- The whole request-to-path pipeline: URL parsing normalizes the raw
request segments, then handle decodes them and pushes them onto the
root. -/
def requestFsPath (root : List String) (rawSegs : List (List Nat)) : Option (List String) :=
  handleFsPath root (urlNormalizeSegments rawSegs)

/-- Operating-system resolution of a component list: a dot-dot component
pops the last component, a dot is skipped, everything else appends.  This
is what the fs metadata and open calls see. -/
def osResolve (path : List String) : List String :=
  path.foldl
    (fun acc c =>
      if c = ".." then acc.dropLast
      else if c = "." then acc
      else acc ++ [c])
    []

/-! Helper lemmas about the send_file phases, shared by the claim
theorems below. -/

theorem rangePhase_ok_contentEncoding (cfg : Config) (req : FileRequest) (meta : FileMeta)
    (r : Resp) (h : rangePhase cfg req meta = .ok r) : r.contentEncoding = none := by
  unfold rangePhase at h
  split at h
  · split at h
    · simp at h
    · generalize (if ifRangeMatches (etagOf meta) meta.modifiedSec req.ifRange = true
        then req.range else none) = rng at h
      repeat split at h
      all_goals first
        | (injection h with h; subst h; rfl)
        | injection h
  · injection h with h
    subst h
    rfl

theorem compressPhase_status (c : Option (List String)) (p : String)
    (a : Option (List QualityItem)) (r : Resp) : (compressPhase c p a r).status = r.status := by
  unfold compressPhase
  split
  · split
    · split
      · split <;> rfl
      · rfl
    · rfl
  · rfl

theorem compressPhase_of_206 (c : Option (List String)) (p : String)
    (a : Option (List QualityItem)) (r : Resp) (h : r.status = Status.content206) :
    compressPhase c p a r = r := by
  unfold compressPhase
  split
  · rw [if_neg]
    intro hc
    exact hc.1 h
  · rfl

theorem cachePhase_cases (cfg : Config) (ims : Option Int) (meta : FileMeta) (r : Resp) :
    cachePhase cfg ims meta r = notModifiedResp
    ∨ ((cachePhase cfg ims meta r).status = r.status
       ∧ (cachePhase cfg ims meta r).contentEncoding = r.contentEncoding) := by
  unfold cachePhase
  split
  · split
    · split
      · exact Or.inl rfl
      · exact Or.inr ⟨rfl, rfl⟩
    · exact Or.inr ⟨rfl, rfl⟩
  · exact Or.inr ⟨rfl, rfl⟩

theorem indexOverride_append (pre post : List DirEntry) (e : DirEntry)
    (hpre : ∀ x ∈ pre, ¬ (x.filename = "index.html" ∨ x.filename = "index.htm"))
    (he : e.filename = "index.html" ∨ e.filename = "index.htm") :
    indexOverride true (pre ++ e :: post) = some e.filename := by
  induction pre with
  | nil => simp [indexOverride, List.find?, he]
  | cons x xs ih =>
    have hx : ¬ (x.filename = "index.html" ∨ x.filename = "index.htm") :=
      hpre x (List.mem_cons_self x xs)
    have ihx := ih (fun y hy => hpre y (List.mem_cons_of_mem x hy))
    simp only [indexOverride, if_true] at ihx ⊢
    rw [List.cons_append, List.find?_cons_of_neg _ (by simp [hx])]
    exact ihx

/-! The claim theorems. -/

/-- C1 (code bug evaluation): the percent-encoded dot-dot segment forms
are removed by rust-url while parsing, before handle runs, so a request
for percent-2e-percent-2e slash secret resolves inside the root — but a
dot-dot hidden behind an encoded slash survives parsing: the single raw
segment dot dot percent-2f secret reaches handle verbatim, decodes to
the part dot-dot-slash-secret, and PathBuf::push splits that part at
the slash, so with root home/www the pushed path resolves to
home/secret, outside the root, with no rejection of any kind.  The
claim requires such a request to be rejected as NotFound or BadRequest;
the code has no check at all. -/
theorem C1_path_traversal_eval :
    urlNormalizeSegments [[37, 50, 101, 37, 50, 101], [115, 101, 99, 114, 101, 116]]
      = [[115, 101, 99, 114, 101, 116]]
    ∧ requestFsPath ["home", "www"] [[37, 50, 101, 37, 50, 101], [115, 101, 99, 114, 101, 116]]
      = some ["home", "www", "secret"]
    ∧ requestFsPath ["home", "www"] [[46, 46, 37, 50, 102, 115, 101, 99, 114, 101, 116]]
      = some ["home", "www", "..", "secret"]
    ∧ osResolve ["home", "www", "..", "secret"] = ["home", "secret"]
    ∧ (["home", "www"].isPrefixOf ["home", "secret"]) = false := by
  refine ⟨by decide, by decide, by decide, by decide, by decide⟩

/-- C2: the first byte range is normalized exactly as claimed: FromTo
fails with 416 iff x at least L or x past y, else gives offset x and
length min y (L-1) minus x plus 1; AllFrom fails iff x at least L, else
gives offset x and length L minus x; Last never fails and gives offset
L minus min x L and length min x L; an empty range set and a non-bytes
unit give 416; ranges after the first are ignored. -/
theorem C2_range_normalization :
    ∀ (L x y : Nat),
      (resolveByteRange L (.fromTo x y) = .error .notSatisfiable416 ↔ (x ≥ L ∨ x > y))
    ∧ (¬ (x ≥ L ∨ x > y) →
        resolveByteRange L (.fromTo x y) = .ok (x, min y (L - 1) - x + 1))
    ∧ (x ≥ L → resolveByteRange L (.allFrom x) = .error .notSatisfiable416)
    ∧ (x < L → resolveByteRange L (.allFrom x) = .ok (x, L - x))
    ∧ (resolveByteRange L (.last x) = .ok (L - min x L, min x L))
    ∧ (∀ (cfg : Config) (path : String) (req : FileRequest) (meta : FileMeta)
        (r : ByteRangeSpec) (rest rest2 : List ByteRangeSpec),
        sendFileGet cfg path { req with range := some (.bytes (r :: rest)) } meta
          = sendFileGet cfg path { req with range := some (.bytes (r :: rest2)) } meta)
    ∧ (∀ (cfg : Config) (req : FileRequest) (meta : FileMeta),
        cfg.range = true → req.ifMatch = none → req.ifRange = none →
        rangePhase cfg { req with range := some (.bytes []) } meta
            = .error .notSatisfiable416
        ∧ ∀ (u v : String),
            rangePhase cfg { req with range := some (.unregistered u v) } meta
              = .error .notSatisfiable416) := by
  intro L x y
  refine ⟨?_, ?_, ?_, ?_, ?_, ?_, ?_⟩
  · constructor
    · intro h
      by_contra hc
      simp [resolveByteRange, hc] at h
    · intro hc
      simp [resolveByteRange, hc]
  · intro h
    have hy : (if y ≥ L then L - 1 else y) = min y (L - 1) := by
      split <;> omega
    simp [resolveByteRange, h, hy]
  · intro h
    simp [resolveByteRange, h]
  · intro h
    simp [resolveByteRange, Nat.not_le_of_lt h, Nat.not_le.mpr h]
  · have hx : (if x > L then L else x) = min x L := by
      split <;> omega
    simp [resolveByteRange, hx]
  · intro cfg path req meta r rest rest2
    have h : rangePhase cfg { req with range := some (.bytes (r :: rest)) } meta
        = rangePhase cfg { req with range := some (.bytes (r :: rest2)) } meta := by
      unfold rangePhase
      cases hm : ifRangeMatches (etagOf meta) meta.modifiedSec req.ifRange <;>
        simp [hm, List.head?]
    simp only [sendFileGet]
    rw [h]
  · intro cfg req meta hr hm hi
    constructor
    · simp [rangePhase, hr, hm, hi, ifMatchFails, ifRangeMatches, List.head?]
    · intro u v
      simp [rangePhase, hr, hm, hi, ifMatchFails, ifRangeMatches]

/-- C2 witness: file of length 1000, range 900 to end gives offset 900
and length 100; range 900 to 1999 is clamped to the same slice. -/
theorem C2_range_normalization_witness :
    resolveByteRange 1000 (.allFrom 900) = .ok (900, 100)
    ∧ resolveByteRange 1000 (.fromTo 900 1999) = .ok (900, 100) := by
  have h := C2_range_normalization 1000 900 1999
  exact ⟨h.2.2.2.1 (by decide), h.2.1 (by decide)⟩

/-- C3 (code bug evaluation): the segment percent-F-F percent-decodes to
the byte 255, which is not valid UTF-8, so the unwrap in handle panics
(modelled as none) instead of mapping to a 400 response; and an invalid
percent-encoding such as percent-z-z is passed through literally with no
error at all.  The decoding pipeline has no 400 outcome anywhere. -/
theorem C3_decode_failure_eval :
    decodedParts [[37, 70, 70]] = none
    ∧ percentDecode [37, 122, 122] = [37, 122, 122]
    ∧ decodedParts [[37, 122, 122]] = some ["%zz"] := by
  refine ⟨by decide, by decide, by decide⟩

/-- C4 counterexample: caching enabled, If-Modified-Since at 1000 with
modification time 500 (so the date is past the modification time), but
the request also carries the unsatisfiable range 50 to 60 on a 10-byte
file: the response is 416, not the 304 the claim requires for every
Range header, satisfiable or not. -/
theorem C4_counterexample :
    sendFileGet ⟨false, true, true, true, none⟩ "a.txt"
        ⟨none, none, some (.bytes [.fromTo 50 60]), some 1000, none⟩ ⟨10, 500⟩
      = .error .notSatisfiable416 := by rfl

/-- C4 amended: with caching enabled and an If-Modified-Since date at or
past the modification time, every successful response is the fresh 304
with no body, no Content-Type-bearing headers and no compression — but
only provided the range phase did not error first: an unsatisfiable
Range (or failed If-Match, or empty or non-bytes range set) returns 416
before If-Modified-Since is consulted. -/
theorem C4_ims_short_circuit :
    ∀ (cfg : Config) (path : String) (req : FileRequest) (meta : FileMeta) (d : Int) (r : Resp),
      cfg.cache = true → req.ifModifiedSince = some d → meta.modifiedSec ≤ d →
      sendFileGet cfg path req meta = .ok r →
      r = notModifiedResp ∧ r.status = .notModified304 ∧ r.body = .empty
        ∧ r.contentEncoding = none := by
  intro cfg path req meta d r hc hi hle h
  unfold sendFileGet at h
  cases hr : rangePhase cfg req meta with
  | error e =>
    rw [hr] at h
    simp at h
  | ok resp =>
    rw [hr] at h
    injection h with h
    rw [← h]
    simp [cachePhase, hc, hi, hle, notModifiedResp]

/-- C4 witness: same conditions with a satisfiable range 0 to 4 on the
10-byte file: the result is exactly the fresh 304 response. -/
theorem C4_ims_short_circuit_witness :
    sendFileGet ⟨false, true, true, true, none⟩ "a.txt"
        ⟨none, none, some (.bytes [.fromTo 0 4]), some 1000, none⟩ ⟨10, 500⟩
      = .ok notModifiedResp
    ∧ notModifiedResp.status = .notModified304 ∧ notModifiedResp.body = .empty := by
  have h := C4_ims_short_circuit ⟨false, true, true, true, none⟩ "a.txt"
      ⟨none, none, some (.bytes [.fromTo 0 4]), some 1000, none⟩ ⟨10, 500⟩ 1000 notModifiedResp
      rfl rfl (by decide) (by rfl)
  exact ⟨by rfl, h.2.1, h.2.2.1⟩

/-- C6 counterexample: two directory entries whose metadata lengths
differ (4096 and 8192 bytes) compare as less-than under the size field,
not equal as the claim states. -/
theorem C6_counterexample :
    cmpSize ⟨"d1", ⟨true, false, 4096, 0⟩⟩ ⟨"d2", ⟨true, false, 8192, 0⟩⟩ = Ordering.lt
    ∧ cmpSize ⟨"d1", ⟨true, false, 4096, 0⟩⟩ ⟨"d2", ⟨true, false, 8192, 0⟩⟩ ≠ Ordering.eq := by
  refine ⟨by decide, by decide⟩

/-- C6 amended: under the size field a directory entry always compares
less than a file entry regardless of numeric size, file entries compare
by byte length, and two directory entries also compare by their metadata
byte length (equal only when those lengths are equal, not
unconditionally); the example listing sorts as claimed. -/
theorem C6_size_comparator :
    ∀ (a b : DirEntry),
      (a.metadata.isDirFlag = true → a.metadata.isFileFlag = false →
       b.metadata.isDirFlag = false → b.metadata.isFileFlag = true →
       cmpSize a b = Ordering.lt)
    ∧ (a.metadata.isDirFlag = false → a.metadata.isFileFlag = true →
       b.metadata.isDirFlag = true → b.metadata.isFileFlag = false →
       cmpSize a b = Ordering.gt)
    ∧ (a.metadata.isDirFlag = b.metadata.isDirFlag →
       cmpSize a b = compare a.metadata.len b.metadata.len)
    ∧ listDirSortPhase true [("sort", "size"), ("order", "asc")]
        [⟨"b.txt", ⟨false, true, 10, 0⟩⟩, ⟨"a", ⟨true, false, 4096, 0⟩⟩,
         ⟨"c.txt", ⟨false, true, 5, 0⟩⟩]
      = .ok [⟨"a", ⟨true, false, 4096, 0⟩⟩, ⟨"c.txt", ⟨false, true, 5, 0⟩⟩,
             ⟨"b.txt", ⟨false, true, 10, 0⟩⟩] := by
  intro a b
  refine ⟨?_, ?_, ?_, by rfl⟩
  · intro h1 h2 h3 h4
    simp [cmpSize, h1, h2, h3, h4]
  · intro h1 h2 h3 h4
    simp [cmpSize, h1, h2, h3, h4]
  · intro hd
    simp [cmpSize, hd]

/-- C6 witness: a directory entry of length 4096 still sorts below a
5-byte file entry. -/
theorem C6_size_comparator_witness :
    cmpSize ⟨"d", ⟨true, false, 4096, 0⟩⟩ ⟨"f.txt", ⟨false, true, 5, 0⟩⟩ = Ordering.lt :=
  (C6_size_comparator ⟨"d", ⟨true, false, 4096, 0⟩⟩ ⟨"f.txt", ⟨false, true, 5, 0⟩⟩).1
    rfl rfl rfl rfl

/-- C7 counterexample: with sorting enabled, an order value outside asc
and desc but no sort parameter at all is silently ignored: the listing
succeeds instead of returning the 400 the claim requires for every
invalid order value. -/
theorem C7_counterexample :
    listDirSortPhase true [("order", "bogus")] [] = .ok []
    ∧ (Except.ok [] : Except Status (List DirEntry)) ≠ .error .badRequest400 := by
  refine ⟨by rfl, by simp⟩

/-- C7 amended: with sorting enabled, validation only happens when a sort
parameter is present: an unknown sort value yields 400, an unknown order
value yields 400 only when a sort value is also given, and with no sort
parameter the listing succeeds unsorted with the order value never
consulted. -/
theorem C7_sort_validation :
    ∀ (pairs : List (String × String)) (entries : List DirEntry),
      (∀ f, (parseSortQuery pairs).1 = some f → sortFields.contains f = false →
        listDirSortPhase true pairs entries = .error .badRequest400)
    ∧ (∀ f, (parseSortQuery pairs).1 = some f → sortFields.contains f = true →
        (["asc", "desc"].contains ((parseSortQuery pairs).2.getD "desc")) = false →
        listDirSortPhase true pairs entries = .error .badRequest400)
    ∧ ((parseSortQuery pairs).1 = none → listDirSortPhase true pairs entries = .ok entries) := by
  intro pairs entries
  refine ⟨?_, ?_, ?_⟩
  · intro f hf hc
    have hm : f ∉ sortFields := by simpa using hc
    simp [listDirSortPhase, hf, hm]
  · intro f hf hc ho
    have hm : f ∈ sortFields := by simpa using hc
    have ho2 : ¬ ((parseSortQuery pairs).2.getD "desc" = "asc"
        ∨ (parseSortQuery pairs).2.getD "desc" = "desc") := by simpa using ho
    simp [listDirSortPhase, hf, hm, ho2]
  · intro hf
    simp [listDirSortPhase, hf]

/-- C7 witness: sort bogus yields 400 Bad Request. -/
theorem C7_sort_validation_witness :
    listDirSortPhase true [("sort", "bogus")] [] = .error .badRequest400 :=
  (C7_sort_validation [("sort", "bogus")] []).1 "bogus" rfl rfl

/-- C8 counterexample: with automatic index enabled and the directory
iteration order placing index.htm before index.html, the served file is
index.htm, not the index.html the claim requires independently of
order. -/
theorem C8_counterexample :
    indexOverride true
        [⟨"index.htm", ⟨false, true, 5, 0⟩⟩, ⟨"index.html", ⟨false, true, 6, 0⟩⟩]
      = some "index.htm"
    ∧ (some "index.htm" : Option String) ≠ some "index.html" := by
  refine ⟨by decide, by decide⟩

/-- C8 amended: with automatic index enabled, the first entry in
iteration order (after any sorting) named index.html or index.htm
overrides the listing and is served; when both names are present the
earlier entry wins, so the outcome depends on enumeration or sort order
rather than on a fixed index.html-then-index.htm lookup. -/
theorem C8_index_override :
    ∀ (pre post : List DirEntry) (e : DirEntry),
      (∀ x ∈ pre, ¬ (x.filename = "index.html" ∨ x.filename = "index.htm")) →
      (e.filename = "index.html" ∨ e.filename = "index.htm") →
      indexOverride true (pre ++ e :: post) = some e.filename
      ∧ ∀ (compressConfigured : Bool) (accept : Option (List QualityItem)),
          listDirectory true true compressConfigured [] accept (pre ++ e :: post)
            = .ok (.serveFile e.filename) := by
  intro pre post e hpre he
  have hov := indexOverride_append pre post e hpre he
  refine ⟨hov, ?_⟩
  intro compressConfigured accept
  simp [listDirectory, listDirSortPhase, parseSortQuery, hov]

/-- C8 witness: entries zz.txt, index.htm, index.html in that order give
index.htm. -/
theorem C8_index_override_witness :
    indexOverride true
        [⟨"zz.txt", ⟨false, true, 1, 0⟩⟩, ⟨"index.htm", ⟨false, true, 5, 0⟩⟩,
         ⟨"index.html", ⟨false, true, 6, 0⟩⟩]
      = some "index.htm" :=
  (C8_index_override [⟨"zz.txt", ⟨false, true, 1, 0⟩⟩]
      [⟨"index.html", ⟨false, true, 6, 0⟩⟩] ⟨"index.htm", ⟨false, true, 5, 0⟩⟩
      (by decide) (Or.inr rfl)).1

/-- C9: a successful send_file response with status 206 Partial Content
never carries a Content-Encoding header, for every configuration of
compressible suffixes and every Accept-Encoding value: the compression
step is guarded on the status not being 206, the range phase never sets
an encoding, and the cache step preserves it. -/
theorem C9_no_compressed_206 :
    ∀ (cfg : Config) (path : String) (req : FileRequest) (meta : FileMeta) (r : Resp),
      sendFileGet cfg path req meta = .ok r →
      r.status = .content206 →
      r.contentEncoding = none := by
  intro cfg path req meta r h h206
  unfold sendFileGet at h
  cases hr : rangePhase cfg req meta with
  | error e =>
    rw [hr] at h
    simp at h
  | ok resp =>
    rw [hr] at h
    injection h with h
    rcases cachePhase_cases cfg req.ifModifiedSince meta
        (compressPhase cfg.compress path req.acceptEncoding resp) with hc | ⟨hs, he⟩
    · rw [← h, hc] at h206
      simp [notModifiedResp] at h206
    · rw [← h] at h206 ⊢
      rw [he]
      have hst : resp.status = Status.content206 := by
        rw [hs, compressPhase_status] at h206
        exact h206
      rw [compressPhase_of_206 _ _ _ _ hst]
      exact rangePhase_ok_contentEncoding cfg req meta resp hr

/-- C9 witness: a concrete satisfiable range request yields the 206
response below, whose Content-Encoding is none. -/
theorem C9_no_compressed_206_witness :
    (⟨Status.content206, some 5, some (0, 4, 10), none, .fileSlice 0 5, none, none,
        false, true⟩ : Resp).contentEncoding = none :=
  C9_no_compressed_206 ⟨false, false, true, true, none⟩ "a.txt"
    ⟨none, none, some (.bytes [.fromTo 0 4]), none, none⟩ ⟨10, 500⟩
    ⟨Status.content206, some 5, some (0, 4, 10), none, .fileSlice 0 5, none, none, false, true⟩
    (by rfl) (by rfl)

/-- C10: when compression is configured, a directory-listing response to
a request whose Accept-Encoding contains any gzip or deflate item, with
any quality, carries Content-Encoding exactly gzip — the listed encoding
itself and its order are never reflected in the choice. -/
theorem C10_listing_gzip :
    ∀ (items : List QualityItem) (qi : QualityItem),
      qi ∈ items → (qi.item = Encoding.deflate ∨ qi.item = Encoding.gzip) →
      listingEncoding true (some items) = some Encoding.gzip
      ∧ ∀ (entries : List DirEntry),
          listDirectory false false true [] (some items) entries
            = .ok (.listing entries (some Encoding.gzip)) := by
  intro items qi hmem hdg
  have hany : (items.any fun q => q.item == Encoding.deflate || q.item == Encoding.gzip)
      = true := by
    rw [List.any_eq_true]
    refine ⟨qi, hmem, ?_⟩
    rcases hdg with h | h <;> simp [h]
  have henc : listingEncoding true (some items) = some Encoding.gzip := by
    simp [listingEncoding, hany]
  refine ⟨henc, ?_⟩
  intro entries
  simp [listDirectory, listDirSortPhase, indexOverride, henc]

/-- C10 witness: a client listing only deflate (quality 0.5) still gets
gzip on the listing. -/
theorem C10_listing_gzip_witness :
    listingEncoding true (some [⟨Encoding.deflate, 500⟩]) = some Encoding.gzip :=
  (C10_listing_gzip [⟨Encoding.deflate, 500⟩] ⟨Encoding.deflate, 500⟩
    (List.mem_singleton.mpr rfl) (Or.inl rfl)).1

end SimpleHttpServer
